import Mathlib

/-!
Verification of the ado-pr-mcp server (Azure DevOps pull-request MCP resource
server) against its natural-language specification.

The Python sources are shallowly embedded as pure Lean functions:

* `src/ado_pr_mcp/git_detector.py` — `parse_azure_devops_url`,
  `get_git_remote_url`, `detect_current_repo`.  The standard-library call
  `urllib.parse.urlparse` is embedded (ASCII inputs; the NFKC re-check of
  non-ASCII netlocs is out of scope) including its documented raise of
  `ValueError("Invalid IPv6 URL")` on a half-bracketed netloc.  The two
  concrete regular expressions of the source are embedded directly with
  `re.search` / `re.match` leftmost-match semantics.
* `src/ado_pr_mcp/azure_client.py` — `AzureDevOpsClient.get_pull_requests`.
  The outbound HTTP exchange is made explicit: the request the method builds
  (URL and query parameters, lines 68-76) is `AzureDevOpsClient.request`, and
  the outcome of `await self.client.get(...)` is passed in as a `WireResult`
  (either a transport-level failure or an HTTP response carrying a status code
  and a parsed JSON body).  Python exceptions are modelled by `Except PyError`.
* `src/ado_pr_mcp/models.py` — the pydantic record types.  Field values taken
  from the response JSON are kept as raw JSON values; pydantic validation of
  the *types* of present values is outside every claim, while the
  presence/absence behaviour (`[]` indexing raising `KeyError` versus `.get`
  defaulting) is modelled exactly.
* `src/ado_pr_mcp/resources.py` — the module-global lazily constructed client
  (`get_ado_client`) and the two resource handlers.  The module-global
  `_ado_client` is threaded as explicit state of type `AdoState`; the git
  subprocess outcome is a `SubprocResult` input.
-/

/-- A raised Python exception, identified by class and payload. -/
inductive PyError where
  /-- `ValueError(msg)`. -/
  | valueError (msg : String)
  /-- `KeyError(key)`, raised by `d[key]` on a dict without the key. -/
  | keyError (key : String)
  /-- `TypeError(msg)`. -/
  | typeError (msg : String)
  /-- `AttributeError(msg)`, raised by `.get` on a non-dict. -/
  | attributeError (msg : String)
  /-- `httpx.HTTPStatusError` re-raised by `raise_for_status`, identified by
  the response status code it reports. -/
  | httpStatusError (status : Nat)
deriving DecidableEq

/-- A JSON value, as produced by `response.json()` / consumed by `json.dumps`.
Numbers are modelled as integers (the upstream fields read by the client are
integral); JSON objects are ordered key/value lists, looked up first-match as
a Python dict built from unique keys. -/
inductive Json where
  | null
  | bool (b : Bool)
  | num (n : Int)
  | str (s : String)
  | arr (elems : List Json)
  | obj (fields : List (String × Json))

/-- `RepoInfo` dataclass of `git_detector.py`. -/
structure RepoInfo where
  organization : String
  project : String
  repository : String
deriving DecidableEq

/-! ## Embedding of `urllib.parse.urlparse` (ASCII scope)

Follows CPython `Lib/urllib/parse.py`: leading C0-control/space stripping,
removal of tab/CR/LF, scheme split at the first colon, netloc after `//` up to
the first of `/?#`, the `Invalid IPv6 URL` ValueError for a half-bracketed
netloc, fragment split before query split, and (for `urlparse` on top of
`urlsplit`) the `;params` split on the last path segment. -/

/-- Result record of `urlparse`: scheme, netloc, path, params, query,
fragment. -/
structure UrlParts where
  scheme : String
  netloc : String
  path : String
  params : String
  query : String
  fragment : String
deriving DecidableEq

/-- Split a character list at the first occurrence of `d`: Python
`s.split(d, 1)` when `d` occurs, `none` when it does not. -/
def breakAt (d : Char) : List Char → Option (List Char × List Char)
  | [] => none
  | c :: r =>
    if c = d then some ([], r)
    else (breakAt d r).map (fun p => (c :: p.1, p.2))

/-- CPython `_UNSAFE_URL_BYTES_TO_REMOVE`: every tab, CR and LF is removed
from the URL before parsing. -/
def removeUnsafeChars (cs : List Char) : List Char :=
  cs.filter (fun c => !(c = '\t' || c = '\r' || c = '\n'))

/-- CPython lstrip of `_WHATWG_C0_CONTROL_OR_SPACE` (code points 0x00-0x20)
applied to the URL. -/
def lstripControl (cs : List Char) : List Char :=
  cs.dropWhile (fun c => c.toNat ≤ 32)

/-- CPython `scheme_chars`: ASCII letters, digits and `+`, `-`, `.`. -/
def isSchemeChar (c : Char) : Bool :=
  c.isAlphanum || c = '+' || c = '-' || c = '.'

/-- Scheme detection of `urlsplit`: the text before the first colon is a
scheme when it is nonempty, starts with an ASCII letter and consists of scheme
characters; it is then lowercased and removed.  Otherwise the URL is kept
whole. -/
def splitScheme (cs : List Char) : List Char × List Char :=
  match breakAt ':' cs with
  | some (pre, rest) =>
    if !pre.isEmpty && (pre.headD ' ').isAlpha && pre.all isSchemeChar then
      (pre.map Char.toLower, rest)
    else ([], cs)
  | none => ([], cs)

/-- Netloc delimiters of `_splitnetloc`: the netloc ends at the first of
`/`, `?`, `#`. -/
def notNetlocDelim (c : Char) : Bool :=
  !(c = '/' || c = '?' || c = '#')

/-- CPython `_splitparams`: split `;params` off the last path segment (only
called when the path contains `;`). -/
def splitparams (url : List Char) : List Char × List Char :=
  if url.contains '/' then
    let revSeg := url.reverse.takeWhile (fun c => !(c = '/'))
    let pre := (url.reverse.dropWhile (fun c => !(c = '/'))).reverse
    match breakAt ';' revSeg.reverse with
    | some (a, b) => (pre ++ a, b)
    | none => (url, [])
  else
    match breakAt ';' url with
    | some (a, b) => (a, b)
    | none => (url, [])

/-- Embedding of `urllib.parse.urlsplit` (params field left empty). -/
def urlsplit (s : String) : Except PyError UrlParts := do
  let cs := removeUnsafeChars (lstripControl s.data)
  let (scheme, rest) := splitScheme cs
  let (netloc, rest2) :=
    match rest with
    | '/' :: '/' :: r => (r.takeWhile notNetlocDelim, r.dropWhile notNetlocDelim)
    | other => ([], other)
  if (netloc.contains '[' && !netloc.contains ']') ||
     (netloc.contains ']' && !netloc.contains '[') then
    throw (.valueError "Invalid IPv6 URL")
  let (rest3, fragment) :=
    match breakAt '#' rest2 with
    | some (a, b) => (a, b)
    | none => (rest2, [])
  let (path, query) :=
    match breakAt '?' rest3 with
    | some (a, b) => (a, b)
    | none => (rest3, [])
  return ⟨⟨scheme⟩, ⟨netloc⟩, ⟨path⟩, "", ⟨query⟩, ⟨fragment⟩⟩

/-- Embedding of `urllib.parse.urlparse`: `urlsplit` plus the `;params` split
on the path. -/
def pyUrlparse (s : String) : Except PyError UrlParts := do
  let sp ← urlsplit s
  if sp.path.data.contains ';' then
    let (p, par) := splitparams sp.path.data
    return { sp with path := ⟨p⟩, params := ⟨par⟩ }
  else
    return sp

/-! ## Embedding of the two regular expressions of `git_detector.py` -/

/-- Python substring operator `needle in hay` (case-sensitive, the empty
needle matches everywhere). -/
def pyIn (needle hay : List Char) : Bool :=
  match hay with
  | [] => needle.isEmpty
  | _ :: t => needle.isPrefixOf hay || pyIn needle t

/-- One match attempt of `re.search(r"/([^/]+)/([^/]+)/_git/([^/]+)", path)`
at a fixed start position.  Both `[^/]+` groups are necessarily the maximal
slash-free runs (each is followed by a literal `/` in the pattern, so no
shorter backtracking alternative can succeed). -/
def matchModernAt (cs : List Char) : Option (String × String × String) :=
  match cs with
  | [] => none
  | c :: rest =>
    if c = '/' then
      let g1 := rest.takeWhile (fun a => !(a = '/'))
      let r1 := rest.dropWhile (fun a => !(a = '/'))
      if g1.isEmpty then none
      else
        match r1 with
        | [] => none
        | c2 :: rest2 =>
          if c2 = '/' then
            let g2 := rest2.takeWhile (fun a => !(a = '/'))
            let r2 := rest2.dropWhile (fun a => !(a = '/'))
            if g2.isEmpty then none
            else if ['/', '_', 'g', 'i', 't', '/'].isPrefixOf r2 then
              let g3 := (r2.drop 6).takeWhile (fun a => !(a = '/'))
              if g3.isEmpty then none
              else some (⟨g1⟩, ⟨g2⟩, ⟨g3⟩)
            else none
          else none
    else none

/-- `re.search` driver: try the match at each start position from the left,
returning the leftmost success. -/
def reSearch {α : Type} (matchAt : List Char → Option α) : List Char → Option α
  | [] => matchAt []
  | c :: t =>
    match matchAt (c :: t) with
    | some r => some r
    | none => reSearch matchAt t

/-- `re.search(r"/([^/]+)/([^/]+)/_git/([^/]+)", path)` of the modern branch. -/
def searchModern (path : List Char) : Option (String × String × String) :=
  reSearch matchModernAt path

/-- `re.match(r"^([^.]+)\.visualstudio\.com", netloc)` of the legacy branch:
anchored at the start, the dot-free group followed by the literal marker (a
trailing remainder is allowed, as with `re.match`). -/
def matchLegacyHost (netloc : List Char) : Option String :=
  let g := netloc.takeWhile (fun a => !(a = '.'))
  let rest := netloc.dropWhile (fun a => !(a = '.'))
  if g.isEmpty then none
  else if ".visualstudio.com".data.isPrefixOf rest then some ⟨g⟩
  else none

/-- One match attempt of `re.search(r"/([^/]+)/_git/([^/]+)", path)` at a
fixed start position. -/
def matchLegacyPathAt (cs : List Char) : Option (String × String) :=
  match cs with
  | [] => none
  | c :: rest =>
    if c = '/' then
      let g1 := rest.takeWhile (fun a => !(a = '/'))
      let r1 := rest.dropWhile (fun a => !(a = '/'))
      if g1.isEmpty then none
      else if ['/', '_', 'g', 'i', 't', '/'].isPrefixOf r1 then
        let g2 := (r1.drop 6).takeWhile (fun a => !(a = '/'))
        if g2.isEmpty then none
        else some (⟨g1⟩, ⟨g2⟩)
      else none
    else none

/-- `re.search(r"/([^/]+)/_git/([^/]+)", path)` of the legacy branch. -/
def searchLegacyPath (path : List Char) : Option (String × String) :=
  reSearch matchLegacyPathAt path

/-! ## `git_detector.py` -/

/-- `parse_azure_devops_url` (`git_detector.py` lines 39-83).  The result is
`Except` because the uncaught `urlparse` ValueError propagates. -/
def parse_azure_devops_url (git_url : String) : Except PyError (Option RepoInfo) := do
  let parsed ← pyUrlparse git_url
  if pyIn "dev.azure.com".data parsed.netloc.data then
    match searchModern parsed.path.data with
    | some (o, p, r) => return some ⟨o, p, r⟩
    | none => return none
  else if pyIn "visualstudio.com".data parsed.netloc.data then
    match matchLegacyHost parsed.netloc.data with
    | some org =>
      match searchLegacyPath parsed.path.data with
      | some (p, r) => return some ⟨org, p, r⟩
      | none => return none
    | none => return none
  else
    return none

/-- Outcome of the `subprocess.run(["git", "config", "--get",
"remote.origin.url"], ...)` call in `get_git_remote_url`. -/
inductive SubprocResult where
  /-- Zero exit status; `stdout` captured as text. -/
  | success (stdout : String)
  /-- Non-zero exit status (`check=True` raises `CalledProcessError`). -/
  | calledProcessError
  /-- The 5-second timeout fired (`TimeoutExpired`). -/
  | timeoutExpired
  /-- The `git` executable was not found (`FileNotFoundError`). -/
  | fileNotFound
deriving DecidableEq

/-- `get_git_remote_url` (`git_detector.py` lines 19-36): strip the captured
stdout on success; every modelled failure class is caught and collapsed to
`None`. -/
def get_git_remote_url (sub : SubprocResult) : Option String :=
  match sub with
  | .success stdout => some stdout.trim
  | .calledProcessError => none
  | .timeoutExpired => none
  | .fileNotFound => none

/-- `detect_current_repo` (`git_detector.py` lines 86-96).  `if url:` is
Python truthiness, so an empty remote URL is treated like absence. -/
def detect_current_repo (sub : SubprocResult) : Except PyError (Option RepoInfo) :=
  match get_git_remote_url sub with
  | some url => if url = "" then .ok none else parse_azure_devops_url url
  | none => .ok none

/-! ## `models.py` — pydantic record types

Field values taken from the response JSON are kept as raw JSON values (see the
header comment): the claims concern which fields are read with a default and
which raise on absence, not pydantic type coercion of present values. -/

/-- `PullRequestAuthor` of `models.py`. -/
structure PullRequestAuthor where
  display_name : Json
  unique_name : Json
  id : Json

/-- `PullRequest` of `models.py`. -/
structure PullRequest where
  pull_request_id : Json
  title : Json
  description : Json
  status : Json
  created_date : Json
  created_by : PullRequestAuthor
  source_ref_name : Json
  target_ref_name : Json
  url : Json
  repository_id : Json

/-- `PullRequestList` of `models.py`. -/
structure PullRequestList where
  pull_requests : List PullRequest
  count : Nat

/-- `PullRequestList.from_pull_requests` (`models.py` lines 39-42). -/
def PullRequestList.from_pull_requests (prs : List PullRequest) : PullRequestList :=
  ⟨prs, prs.length⟩

/-- `model_dump` of `PullRequestAuthor`, field order as declared. -/
def PullRequestAuthor.toJson (a : PullRequestAuthor) : Json :=
  .obj [("display_name", a.display_name), ("unique_name", a.unique_name), ("id", a.id)]

/-- `model_dump` of `PullRequest`, field order as declared. -/
def PullRequest.toJson (pr : PullRequest) : Json :=
  .obj [("pull_request_id", pr.pull_request_id), ("title", pr.title),
    ("description", pr.description), ("status", pr.status),
    ("created_date", pr.created_date), ("created_by", pr.created_by.toJson),
    ("source_ref_name", pr.source_ref_name), ("target_ref_name", pr.target_ref_name),
    ("url", pr.url), ("repository_id", pr.repository_id)]

/-- `model_dump` of `PullRequestList` (the object serialized by
`model_dump_json` in the handlers). -/
def PullRequestList.toJson (l : PullRequestList) : Json :=
  .obj [("pull_requests", .arr (l.pull_requests.map PullRequest.toJson)),
    ("count", .num l.count)]

/-! ## `azure_client.py` -/

/-- Module-level constant `AzureDevOpsClient.API_VERSION`. -/
def API_VERSION : String := "7.1"

/-- `AzureDevOpsClient` state set up by `__init__` (`azure_client.py` lines
17-40): the organization and the PAT.  The derived Basic-auth header and the
underlying `httpx.AsyncClient` connection pool carry no information a claim
depends on. -/
structure AzureDevOpsClient where
  organization : String
  personal_access_token : String
deriving DecidableEq

/-- `self.base_url` as assigned in `__init__` line 26. -/
def AzureDevOpsClient.base_url (c : AzureDevOpsClient) : String :=
  "https://dev.azure.com/" ++ c.organization

/-- The outbound HTTP GET: target URL and query parameters, in insertion
order. -/
structure Request where
  url : String
  params : List (String × String)
deriving DecidableEq

/-- The request `get_pull_requests` builds and issues (`azure_client.py`
lines 68-78): the URL from `base_url`/project/repository, the fixed
`api-version` parameter, and the status filter added only when the status is
not `"all"`. -/
def AzureDevOpsClient.request (c : AzureDevOpsClient)
    (project repository status : String) : Request :=
  { url := c.base_url ++ "/" ++ project ++ "/_apis/git/repositories/" ++
      repository ++ "/pullrequests"
    params := ("api-version", API_VERSION) ::
      (if status ≠ "all" then [("searchCriteria.status", status)] else []) }

/-- An HTTP response delivered by `httpx`: status code and parsed JSON body
(`response.json()`). -/
structure Response where
  status : Nat
  body : Json

/-- Outcome of `await self.client.get(url, params=params)`: either a
delivered response, or a transport-level failure (`httpx.ConnectError` —
connection refused or DNS failure — or `httpx.TimeoutException`) carrying its
rendered message. -/
inductive WireResult where
  | resp (r : Response)
  | connectError (msg : String)
  | timeoutException (msg : String)

/-- Python `d[key]` on a JSON value: `KeyError` on a dict without the key,
`TypeError` on a non-dict. -/
def jsonIndex (j : Json) (key : String) : Except PyError Json :=
  match j with
  | .obj fields =>
    match fields.lookup key with
    | some v => .ok v
    | none => .error (.keyError key)
  | _ => .error (.typeError "value is not subscriptable by a string key")

/-- Python `d.get(key, default)` on a dict. -/
def dictGet (fields : List (String × Json)) (key : String) (default : Json) : Json :=
  (fields.lookup key).getD default

/-- Python iteration over the object bound by `for pr_data in ...`: a list
yields its elements, a string its one-character substrings, a dict its keys;
anything else raises `TypeError`. -/
def iterElems : Json → Except PyError (List Json)
  | .arr xs => .ok xs
  | .str s => .ok (s.data.map (fun c => Json.str ⟨[c]⟩))
  | .obj fields => .ok (fields.map (fun kv => Json.str kv.1))
  | _ => .error (.typeError "object is not iterable")

/-- `data.get("value", [])` followed by the loop header (`azure_client.py`
line 87): `.get` on a non-dict body raises `AttributeError`; a missing
`value` key defaults to the empty list. -/
def getValueList (data : Json) : Except PyError (List Json) :=
  match data with
  | .obj fields => iterElems (dictGet fields "value" (.arr []))
  | _ => .error (.attributeError "object has no attribute get")

/-- Lines 89-94 of `azure_client.py`: build the `PullRequestAuthor` from the
(possibly defaulted) `createdBy` object; `.get` on a non-dict raises
`AttributeError`. -/
def getAuthor (created_by_data : Json) : Except PyError PullRequestAuthor :=
  match created_by_data with
  | .obj cf =>
    .ok (PullRequestAuthor.mk (dictGet cf "displayName" (.str "Unknown"))
      (dictGet cf "uniqueName" (.str "")) (dictGet cf "id" (.str "")))
  | _ => .error (.attributeError "object has no attribute get")

/-- The loop body mapping one element of `value` to a `PullRequest`
(`azure_client.py` lines 88-108), reading fields in source order:
`createdBy` (defaulted, sub-fields defaulted), then the mandatory
`pullRequestId`, `title`, (optional `description`), `status`, `creationDate`,
`sourceRefName`, `targetRefName`, (optional `url`), and the mandatory nested
`repository` / `id`. -/
def parsePR (pr_data : Json) : Except PyError PullRequest := do
  match pr_data with
  | .obj fields =>
    let created_by ← getAuthor (dictGet fields "createdBy" (.obj []))
    let prid ← jsonIndex pr_data "pullRequestId"
    let title ← jsonIndex pr_data "title"
    let status ← jsonIndex pr_data "status"
    let cdate ← jsonIndex pr_data "creationDate"
    let sref ← jsonIndex pr_data "sourceRefName"
    let tref ← jsonIndex pr_data "targetRefName"
    let repo ← jsonIndex pr_data "repository"
    let repoId ← jsonIndex repo "id"
    return ⟨prid, title, dictGet fields "description" .null, status, cdate,
      created_by, sref, tref, dictGet fields "url" (.str ""), repoId⟩
  | _ => .error (.attributeError "object has no attribute get")

/-- The whole `for` loop accumulating `pr_list`: the first raising element
aborts the call. -/
def parsePRs : List Json → Except PyError (List PullRequest)
  | [] => .ok []
  | j :: rest => do
    let pr ← parsePR j
    let prs ← parsePRs rest
    return pr :: prs

/-- `AzureDevOpsClient.get_pull_requests` (`azure_client.py` lines 46-130)
given the outcome of its one outbound GET.  A transport failure is caught by
the `(ConnectError, TimeoutException)` clause and re-raised as `ValueError`;
`raise_for_status` on a non-2xx response raises `HTTPStatusError`, which the
first `except` clause maps to the 401 / 404 `ValueError`s or re-raises; on a
2xx response the body is mapped through the loop and wrapped by
`from_pull_requests`.  `KeyError` from the loop is not caught. -/
def get_pull_requests (c : AzureDevOpsClient)
    (project repository status : String) (wire : WireResult) :
    Except PyError PullRequestList :=
  match wire with
  | .connectError msg =>
    .error (.valueError ("Network error connecting to Azure DevOps: " ++ msg))
  | .timeoutException msg =>
    .error (.valueError ("Network error connecting to Azure DevOps: " ++ msg))
  | .resp r =>
    if 200 ≤ r.status ∧ r.status ≤ 299 then do
      let elems ← getValueList r.body
      let prs ← parsePRs elems
      return PullRequestList.from_pull_requests prs
    else if r.status = 401 then
      .error (.valueError
        "Authentication failed. Check AZURE_DEVOPS_PAT token and permissions")
    else if r.status = 404 then
      .error (.valueError ("Project \x27" ++ project ++ "\x27 or repository \x27" ++
        repository ++ "\x27 not found"))
    else
      .error (.httpStatusError r.status)

/-! ## `config.py` and `resources.py` -/

/-- `Settings` of `config.py` (environment-sourced, immutable). -/
structure Settings where
  azure_devops_pat : String
  ado_organization : Option String
  ado_project : Option String
  ado_repository : Option String
  mcp_transport : String
  mcp_log_level : String

/-- The module-global `_ado_client` of `resources.py`, threaded explicitly. -/
def AdoState : Type := Option AzureDevOpsClient

/-- `get_ado_client` (`resources.py` lines 15-35): reuse the global client if
constructed; otherwise run git detection, take the detected organization if a
repo was detected, else the configured default; `if not org:` rejects both a
missing and an empty organization; construct the client once and store it. -/
def get_ado_client (sub : SubprocResult) (settings : Settings) (st : AdoState) :
    Except PyError (AzureDevOpsClient × AdoState) :=
  match st with
  | some c => .ok (c, some c)
  | none => do
    let repo_info ← detect_current_repo sub
    let org : Option String :=
      match repo_info with
      | some ri => some ri.organization
      | none => settings.ado_organization
    match org with
    | none =>
      .error (.valueError ("No organization found. Set ADO_ORGANIZATION " ++
        "environment variable or run from an Azure DevOps git repository"))
    | some o =>
      if o = "" then
        .error (.valueError ("No organization found. Set ADO_ORGANIZATION " ++
          "environment variable or run from an Azure DevOps git repository"))
      else
        let c : AzureDevOpsClient := ⟨o, settings.azure_devops_pat⟩
        .ok (c, some c)

/-- `list_pull_requests_resource` (`resources.py` lines 38-62), returning the
JSON document it serializes and the updated global state.  The
`except ... raise` wrapper re-raises every error unchanged. -/
def list_pull_requests_resource (sub : SubprocResult) (settings : Settings)
    (st : AdoState) (organization project repository status : String)
    (wire : WireResult) : Except PyError (Json × AdoState) := do
  let (client, st2) ← get_ado_client sub settings st
  let result ← get_pull_requests client project repository status wire
  return (result.toJson, st2)

/-- The one outbound request of `list_pull_requests_resource`: the client
obtained by `get_ado_client` issues the GET that
`AzureDevOpsClient.request` describes (`resources.py` lines 57-58 composed
with `azure_client.py` lines 68-78). -/
def list_pull_requests_outbound (sub : SubprocResult) (settings : Settings)
    (st : AdoState) (organization project repository status : String) :
    Except PyError Request := do
  let (client, _) ← get_ado_client sub settings st
  return client.request project repository status

/-- `list_current_pull_requests_resource` (`resources.py` lines 65-100):
detection absence yields the structured error object (returned, not raised);
a detected repository delegates to the client with the detected project and
repository. -/
def list_current_pull_requests_resource (sub : SubprocResult)
    (settings : Settings) (st : AdoState) (status : String)
    (wire : WireResult) : Except PyError (Json × AdoState) := do
  let repo_info ← detect_current_repo sub
  match repo_info with
  | none =>
    return (.obj [("error", .str "Not in an Azure DevOps git repository"),
      ("suggestion", .str ("Use explicit organization/project/repository " ++
        "parameters or run from an Azure DevOps git repository"))], st)
  | some ri => do
    let (client, st2) ← get_ado_client sub settings st
    let result ← get_pull_requests client ri.project ri.repository status wire
    return (result.toJson, st2)

/-- Mandatory-field check of one `value` element, per the spec sentence for
claim C5: the element (a JSON object) lacks one of `pullRequestId`, `title`,
`status`, `creationDate`, `sourceRefName`, `targetRefName`, or lacks the
`repository` object or its nested `id`. -/
def lacksMandatory (j : Json) : Bool :=
  match j with
  | .obj f =>
    (f.lookup "pullRequestId").isNone || (f.lookup "title").isNone ||
    (f.lookup "status").isNone || (f.lookup "creationDate").isNone ||
    (f.lookup "sourceRefName").isNone || (f.lookup "targetRefName").isNone ||
    (match f.lookup "repository" with
     | some (.obj rf) => (rf.lookup "id").isNone
     | some _ => false
     | none => true)
  | _ => false

/-! ## List and string lemmas used by the URL-parser proofs -/

lemma contains_eq_false_of_forall {l : List Char} {c : Char}
    (h : ∀ a ∈ l, ¬ a = c) : l.contains c = false := by
  induction l with
  | nil => rfl
  | cons x t ih =>
    have hx := h x (by simp)
    have ht := ih (fun a ha => h a (by simp [ha]))
    simp [List.contains_cons] at *
    exact ⟨fun he => hx he.symm, ht⟩

lemma takeWhile_eq_self_of_forall {p : Char → Bool} {l : List Char}
    (h : ∀ a ∈ l, p a = true) : l.takeWhile p = l := by
  induction l with
  | nil => rfl
  | cons x t ih =>
    rw [List.takeWhile_cons_of_pos (h x (by simp))]
    rw [ih (fun a ha => h a (by simp [ha]))]

lemma takeWhile_append_cons (p : Char → Bool) (l : List Char) (x : Char)
    (r : List Char) (hl : ∀ a ∈ l, p a = true) (hx : p x = false) :
    (l ++ x :: r).takeWhile p = l := by
  induction l with
  | nil => simp [List.takeWhile_cons, hx]
  | cons a t ih =>
    rw [List.cons_append, List.takeWhile_cons_of_pos (hl a (by simp))]
    rw [ih (fun b hb => hl b (by simp [hb]))]

lemma dropWhile_append_cons (p : Char → Bool) (l : List Char) (x : Char)
    (r : List Char) (hl : ∀ a ∈ l, p a = true) (hx : p x = false) :
    (l ++ x :: r).dropWhile p = x :: r := by
  induction l with
  | nil => simp [List.dropWhile_cons, hx]
  | cons a t ih =>
    rw [List.cons_append, List.dropWhile_cons_of_pos (hl a (by simp))]
    exact ih (fun b hb => hl b (by simp [hb]))

lemma breakAt_eq_none_of_forall {d : Char} {l : List Char}
    (h : ∀ a ∈ l, ¬ a = d) : breakAt d l = none := by
  induction l with
  | nil => rfl
  | cons x t ih =>
    rw [breakAt, if_neg (h x (by simp)), ih (fun a ha => h a (by simp [ha]))]
    rfl

lemma filter_unsafe_of_forall {l : List Char}
    (h : ∀ a ∈ l, ¬a = '\t' ∧ ¬a = '\r' ∧ ¬a = '\n') :
    l.filter (fun c => !(c = '\t' || c = '\r' || c = '\n')) = l := by
  apply List.filter_eq_self.mpr
  intro a ha
  obtain ⟨h1, h2, h3⟩ := h a ha
  simp [h1, h2, h3]

lemma lstrip_h (R : List Char) : lstripControl ('h' :: R) = 'h' :: R := by
  unfold lstripControl
  rw [List.dropWhile_cons, if_neg (by decide)]

lemma splitScheme_https (R : List Char) :
    splitScheme ('h' :: 't' :: 't' :: 'p' :: 's' :: ':' :: R) = ("https".data, R) := rfl

/-- Character that may appear in a host without affecting netloc extraction:
not a netloc delimiter, not a bracket, not a removed control character. -/
def hostPlainChar (c : Char) : Bool :=
  !(c = '/' || c = '?' || c = '#' || c = '[' || c = ']' ||
    c = '\t' || c = '\r' || c = '\n')

/-- Character that may appear after the host without affecting path
extraction: not a query/fragment delimiter, not a params separator, not a
removed control character. -/
def tailPlainChar (c : Char) : Bool :=
  !(c = '?' || c = '#' || c = ';' || c = '\t' || c = '\r' || c = '\n')

/-- Character that may appear in an org/project/repo path segment: a
`tailPlainChar` that is not a path separator. -/
def segPlainChar (c : Char) : Bool :=
  !(c = '/' || c = '?' || c = '#' || c = ';' || c = '\t' || c = '\r' || c = '\n')

/-- A plain, nonempty path segment (decidable side condition of the universal
parser theorems). -/
def segPlain (s : String) : Bool :=
  !s.data.isEmpty && s.data.all segPlainChar

/-- Symbolic evaluation of `urlsplit` on `https://{host}/{tail}` for a plain
host and tail. -/
lemma urlsplit_https (host tail : List Char)
    (hhost : ∀ a ∈ host, hostPlainChar a = true)
    (htail : ∀ a ∈ tail, tailPlainChar a = true) :
    urlsplit ⟨'h' :: 't' :: 't' :: 'p' :: 's' :: ':' :: '/' :: '/' ::
      (host ++ '/' :: tail)⟩ =
      .ok ⟨"https", ⟨host⟩, ⟨'/' :: tail⟩, "", "", ""⟩ := by
  have hostFacts : ∀ a ∈ host, ¬a = '/' ∧ ¬a = '?' ∧ ¬a = '#' ∧ ¬a = '[' ∧
      ¬a = ']' ∧ ¬a = '\t' ∧ ¬a = '\r' ∧ ¬a = '\n' := by
    intro a ha
    have := hhost a ha
    simp [hostPlainChar] at this
    tauto
  have tailFacts : ∀ a ∈ tail, ¬a = '?' ∧ ¬a = '#' ∧ ¬a = ';' ∧ ¬a = '\t' ∧
      ¬a = '\r' ∧ ¬a = '\n' := by
    intro a ha
    have := htail a ha
    simp [tailPlainChar] at this
    tauto
  have hH : host.filter (fun c => !(c = '\t' || c = '\r' || c = '\n')) = host :=
    filter_unsafe_of_forall (fun a ha => by have := hostFacts a ha; tauto)
  have hT : tail.filter (fun c => !(c = '\t' || c = '\r' || c = '\n')) = tail :=
    filter_unsafe_of_forall (fun a ha => by have := tailFacts a ha; tauto)
  have hcs : removeUnsafeChars (lstripControl ('h' :: 't' :: 't' :: 'p' :: 's' ::
      ':' :: '/' :: '/' :: (host ++ '/' :: tail))) =
      'h' :: 't' :: 't' :: 'p' :: 's' :: ':' :: '/' :: '/' ::
      (host ++ '/' :: tail) := by
    rw [lstrip_h]
    unfold removeUnsafeChars
    rw [List.filter_cons, if_pos (by decide), List.filter_cons, if_pos (by decide),
      List.filter_cons, if_pos (by decide), List.filter_cons, if_pos (by decide),
      List.filter_cons, if_pos (by decide), List.filter_cons, if_pos (by decide),
      List.filter_cons, if_pos (by decide), List.filter_cons, if_pos (by decide),
      List.filter_append, hH, List.filter_cons, if_pos (by decide), hT]
  have htakeH : (host ++ '/' :: tail).takeWhile notNetlocDelim = host :=
    takeWhile_append_cons notNetlocDelim host '/' tail
      (fun a ha => by
        have := hostFacts a ha
        simp [notNetlocDelim]
        tauto)
      (by decide)
  have hdropH : (host ++ '/' :: tail).dropWhile notNetlocDelim = '/' :: tail :=
    dropWhile_append_cons notNetlocDelim host '/' tail
      (fun a ha => by
        have := hostFacts a ha
        simp [notNetlocDelim]
        tauto)
      (by decide)
  have hbrL : host.contains '[' = false :=
    contains_eq_false_of_forall (fun a ha => by have := hostFacts a ha; tauto)
  have hbrR : host.contains ']' = false :=
    contains_eq_false_of_forall (fun a ha => by have := hostFacts a ha; tauto)
  have hfrag : breakAt '#' ('/' :: tail) = none := by
    apply breakAt_eq_none_of_forall
    intro a ha
    rcases List.mem_cons.mp ha with h | h
    · simp [h]
    · have := tailFacts a h; tauto
  have hquery : breakAt '?' ('/' :: tail) = none := by
    apply breakAt_eq_none_of_forall
    intro a ha
    rcases List.mem_cons.mp ha with h | h
    · simp [h]
    · have := tailFacts a h; tauto
  have hdata : (⟨'h' :: 't' :: 't' :: 'p' :: 's' :: ':' :: '/' :: '/' ::
      (host ++ '/' :: tail)⟩ : String).data =
      'h' :: 't' :: 't' :: 'p' :: 's' :: ':' :: '/' :: '/' ::
      (host ++ '/' :: tail) := rfl
  simp only [urlsplit, hdata, hcs, splitScheme_https, htakeH, hdropH, hbrL, hbrR,
    hfrag, hquery, Bool.false_and, Bool.and_false, Bool.or_self, Bool.false_or,
    Bool.not_false, Bool.not_true, if_false, ite_false]
  rfl

/-- Symbolic evaluation of `pyUrlparse` on `https://{host}/{tail}`: no params
split happens on a plain tail. -/
lemma pyUrlparse_https (host tail : List Char)
    (hhost : ∀ a ∈ host, hostPlainChar a = true)
    (htail : ∀ a ∈ tail, tailPlainChar a = true) :
    pyUrlparse ⟨'h' :: 't' :: 't' :: 'p' :: 's' :: ':' :: '/' :: '/' ::
      (host ++ '/' :: tail)⟩ =
      .ok ⟨"https", ⟨host⟩, ⟨'/' :: tail⟩, "", "", ""⟩ := by
  have hcontains : ('/' :: tail).contains ';' = false := by
    apply contains_eq_false_of_forall
    intro a ha
    rcases List.mem_cons.mp ha with h | h
    · simp [h]
    · have := htail a h
      simp [tailPlainChar] at this
      tauto
  simp only [pyUrlparse, urlsplit_https host tail hhost htail]
  simp only [Except.bind, bind]
  have : (⟨'/' :: tail⟩ : String).data = '/' :: tail := rfl
  simp only [this, hcontains]
  rfl

/-- The first regex match attempt succeeds with the three segment groups on a
path of exactly the shape `/{org}/{proj}/_git/{repo}`. -/
lemma matchModernAt_exact (org proj repo : List Char)
    (horg : org ≠ []) (hproj : proj ≠ []) (hrepo : repo ≠ [])
    (horgS : ∀ a ∈ org, ¬a = '/') (hprojS : ∀ a ∈ proj, ¬a = '/')
    (hrepoS : ∀ a ∈ repo, ¬a = '/') :
    matchModernAt ('/' :: (org ++ '/' :: (proj ++ '/' :: '_' :: 'g' :: 'i' ::
      't' :: '/' :: repo))) = some (⟨org⟩, ⟨proj⟩, ⟨repo⟩) := by
  have h1 := takeWhile_append_cons (fun a => !(a = '/')) org '/'
    (proj ++ '/' :: '_' :: 'g' :: 'i' :: 't' :: '/' :: repo)
    (fun a ha => by simp [horgS a ha]) (by decide)
  have h2 := dropWhile_append_cons (fun a => !(a = '/')) org '/'
    (proj ++ '/' :: '_' :: 'g' :: 'i' :: 't' :: '/' :: repo)
    (fun a ha => by simp [horgS a ha]) (by decide)
  have h3 := takeWhile_append_cons (fun a => !(a = '/')) proj '/'
    ('_' :: 'g' :: 'i' :: 't' :: '/' :: repo)
    (fun a ha => by simp [hprojS a ha]) (by decide)
  have h4 := dropWhile_append_cons (fun a => !(a = '/')) proj '/'
    ('_' :: 'g' :: 'i' :: 't' :: '/' :: repo)
    (fun a ha => by simp [hprojS a ha]) (by decide)
  have h5 : repo.takeWhile (fun a => !(a = '/')) = repo :=
    takeWhile_eq_self_of_forall (fun a ha => by simp [hrepoS a ha])
  have horgE : org.isEmpty = false := by
    cases org with
    | nil => exact absurd rfl horg
    | cons a t => rfl
  have hprojE : proj.isEmpty = false := by
    cases proj with
    | nil => exact absurd rfl hproj
    | cons a t => rfl
  have hrepoE : repo.isEmpty = false := by
    cases repo with
    | nil => exact absurd rfl hrepo
    | cons a t => rfl
  have hpre : (['/', '_', 'g', 'i', 't', '/'].isPrefixOf
      ('/' :: '_' :: 'g' :: 'i' :: 't' :: '/' :: repo)) = true := by
    simp [List.isPrefixOf]
  have hdrop : List.drop 6 ('/' :: '_' :: 'g' :: 'i' :: 't' :: '/' :: repo) = repo := rfl
  simp only [matchModernAt, h1, h2, h3, h4, h5, horgE, hprojE, hrepoE, hpre,
    hdrop, if_true, Bool.false_eq_true, if_false]

/-- `re.search` finds the triple at position zero on a path of exactly the
shape `/{org}/{proj}/_git/{repo}`. -/
lemma searchModern_exact (org proj repo : List Char)
    (horg : org ≠ []) (hproj : proj ≠ []) (hrepo : repo ≠ [])
    (horgS : ∀ a ∈ org, ¬a = '/') (hprojS : ∀ a ∈ proj, ¬a = '/')
    (hrepoS : ∀ a ∈ repo, ¬a = '/') :
    searchModern ('/' :: (org ++ '/' :: (proj ++ '/' :: '_' :: 'g' :: 'i' ::
      't' :: '/' :: repo))) = some (⟨org⟩, ⟨proj⟩, ⟨repo⟩) := by
  unfold searchModern
  rw [reSearch, matchModernAt_exact org proj repo horg hproj hrepo horgS hprojS hrepoS]

lemma segPlainChar_tail {a : Char} (h : segPlainChar a = true) :
    tailPlainChar a = true := by
  simp [segPlainChar] at h
  simp [tailPlainChar]
  tauto

lemma segPlain_facts {s : String} (h : segPlain s = true) :
    s.data ≠ [] ∧ (∀ a ∈ s.data, segPlainChar a = true) := by
  simp [segPlain, List.isEmpty_iff, List.all_eq_true] at h
  exact ⟨h.1, h.2⟩

lemma tailPlain_of_segs {o p r : List Char}
    (ho : ∀ a ∈ o, segPlainChar a = true) (hp : ∀ a ∈ p, segPlainChar a = true)
    (hr : ∀ a ∈ r, segPlainChar a = true) :
    ∀ a ∈ (o ++ '/' :: (p ++ '/' :: '_' :: 'g' :: 'i' :: 't' :: '/' :: r)),
      tailPlainChar a = true := by
  intro a ha
  simp only [List.mem_append, List.mem_cons] at ha
  have hcase : a = '/' ∨ a = '_' ∨ a = 'g' ∨ a = 'i' ∨ a = 't' ∨
      a ∈ o ∨ a ∈ p ∨ a ∈ r := by tauto
  rcases hcase with h | h | h | h | h | h | h | h
  · simp [h, tailPlainChar]
  · simp [h, tailPlainChar]
  · simp [h, tailPlainChar]
  · simp [h, tailPlainChar]
  · simp [h, tailPlainChar]
  · exact segPlainChar_tail (ho a h)
  · exact segPlainChar_tail (hp a h)
  · exact segPlainChar_tail (hr a h)

lemma noSlash_of_seg {l : List Char} (h : ∀ a ∈ l, segPlainChar a = true) :
    ∀ a ∈ l, ¬a = '/' := by
  intro a ha he
  have := h a ha
  simp [segPlainChar, he] at this

/-- The modern-format success law at string level: for plain nonempty
segments, the parser recognizes `https://dev.azure.com/{org}/{proj}/_git/{repo}`
and returns exactly the three segments, casing untouched. -/
lemma parse_modern_plain (org proj repo : String)
    (ho : segPlain org = true) (hp : segPlain proj = true)
    (hr : segPlain repo = true) :
    parse_azure_devops_url
      ("https://dev.azure.com/" ++ org ++ "/" ++ proj ++ "/_git/" ++ repo) =
      .ok (some ⟨org, proj, repo⟩) := by
  obtain ⟨hone, hoall⟩ := segPlain_facts ho
  obtain ⟨hpne, hpall⟩ := segPlain_facts hp
  obtain ⟨hrne, hrall⟩ := segPlain_facts hr
  obtain ⟨o⟩ := org
  obtain ⟨p⟩ := proj
  obtain ⟨r⟩ := repo
  simp only [String.data] at hone hpne hrne hoall hpall hrall
  have harg : ("https://dev.azure.com/" ++ ⟨o⟩ ++ "/" ++ ⟨p⟩ ++ "/_git/" ++ ⟨r⟩ :
      String) = ⟨'h' :: 't' :: 't' :: 'p' :: 's' :: ':' :: '/' :: '/' ::
      ("dev.azure.com".data ++ '/' :: (o ++ '/' :: (p ++ '/' :: '_' :: 'g' ::
        'i' :: 't' :: '/' :: r)))⟩ :=
    String.ext (by simp [String.data_append])
  rw [harg]
  have hparts := pyUrlparse_https "dev.azure.com".data
    (o ++ '/' :: (p ++ '/' :: '_' :: 'g' :: 'i' :: 't' :: '/' :: r))
    (by decide) (tailPlain_of_segs hoall hpall hrall)
  simp only [parse_azure_devops_url, hparts, Except.bind, bind]
  have hin : pyIn "dev.azure.com".data
      ((⟨"dev.azure.com".data⟩ : String).data) = true := by decide
  simp only [hin, if_true]
  have hpath : (⟨'/' :: (o ++ '/' :: (p ++ '/' :: '_' :: 'g' :: 'i' :: 't' ::
      '/' :: r))⟩ : String).data =
      '/' :: (o ++ '/' :: (p ++ '/' :: '_' :: 'g' :: 'i' :: 't' :: '/' :: r)) := rfl
  simp only [hpath, searchModern_exact o p r hone hpne hrne
    (noSlash_of_seg hoall) (noSlash_of_seg hpall) (noSlash_of_seg hrall)]
  rfl

/-- Case-sensitivity law: with every letter of the host marker uppercased the
modern and legacy host checks both fail, so the parser returns the no-match
result regardless of the path segments. -/
lemma parse_upper_none (org proj repo : String)
    (ho : segPlain org = true) (hp : segPlain proj = true)
    (hr : segPlain repo = true) :
    parse_azure_devops_url
      ("https://DEV.AZURE.COM/" ++ org ++ "/" ++ proj ++ "/_git/" ++ repo) =
      .ok none := by
  obtain ⟨hone, hoall⟩ := segPlain_facts ho
  obtain ⟨hpne, hpall⟩ := segPlain_facts hp
  obtain ⟨hrne, hrall⟩ := segPlain_facts hr
  obtain ⟨o⟩ := org
  obtain ⟨p⟩ := proj
  obtain ⟨r⟩ := repo
  simp only [String.data] at hoall hpall hrall
  have harg : ("https://DEV.AZURE.COM/" ++ ⟨o⟩ ++ "/" ++ ⟨p⟩ ++ "/_git/" ++ ⟨r⟩ :
      String) = ⟨'h' :: 't' :: 't' :: 'p' :: 's' :: ':' :: '/' :: '/' ::
      ("DEV.AZURE.COM".data ++ '/' :: (o ++ '/' :: (p ++ '/' :: '_' :: 'g' ::
        'i' :: 't' :: '/' :: r)))⟩ :=
    String.ext (by simp [String.data_append])
  rw [harg]
  have hparts := pyUrlparse_https "DEV.AZURE.COM".data
    (o ++ '/' :: (p ++ '/' :: '_' :: 'g' :: 'i' :: 't' :: '/' :: r))
    (by decide) (tailPlain_of_segs hoall hpall hrall)
  simp only [parse_azure_devops_url, hparts, Except.bind, bind]
  have hin1 : pyIn "dev.azure.com".data
      ((⟨"DEV.AZURE.COM".data⟩ : String).data) = false := by decide
  have hin2 : pyIn "visualstudio.com".data
      ((⟨"DEV.AZURE.COM".data⟩ : String).data) = false := by decide
  simp only [hin1, hin2, Bool.false_eq_true, if_false]
  rfl

/-! ## Lemmas about the client -/

lemma Except.bindOk {ε α β : Type} (a : α) (f : α → Except ε β) :
    Except.bind (.ok a) f = f a := rfl

lemma Except.bindErr {ε α β : Type} (e : ε) (f : α → Except ε β) :
    (Except.bind (.error e) f : Except ε β) = .error e := rfl

lemma jsonIndex_ok_lookup {f : List (String × Json)} {k : String} {v : Json}
    (h : jsonIndex (.obj f) k = .ok v) : f.lookup k = some v := by
  simp only [jsonIndex] at h
  cases hl : f.lookup k with
  | none => rw [hl] at h; exact absurd h (by simp)
  | some w => rw [hl] at h; simp at h; rw [h]

lemma parsePR_ok_not_lacks {j : Json} {pr : PullRequest}
    (h : parsePR j = .ok pr) : lacksMandatory j = false := by
  cases j with
  | obj fields =>
    simp only [parsePR, bind] at h
    cases hcb : getAuthor (dictGet fields "createdBy" (.obj [])) with
    | error e => rw [hcb, Except.bindErr] at h; simp at h
    | ok cb =>
    rw [hcb, Except.bindOk] at h
    cases h1 : jsonIndex (.obj fields) "pullRequestId" with
    | error e => rw [h1, Except.bindErr] at h; simp at h
    | ok v1 =>
    rw [h1, Except.bindOk] at h
    cases h2 : jsonIndex (.obj fields) "title" with
    | error e => rw [h2, Except.bindErr] at h; simp at h
    | ok v2 =>
    rw [h2, Except.bindOk] at h
    cases h3 : jsonIndex (.obj fields) "status" with
    | error e => rw [h3, Except.bindErr] at h; simp at h
    | ok v3 =>
    rw [h3, Except.bindOk] at h
    cases h4 : jsonIndex (.obj fields) "creationDate" with
    | error e => rw [h4, Except.bindErr] at h; simp at h
    | ok v4 =>
    rw [h4, Except.bindOk] at h
    cases h5 : jsonIndex (.obj fields) "sourceRefName" with
    | error e => rw [h5, Except.bindErr] at h; simp at h
    | ok v5 =>
    rw [h5, Except.bindOk] at h
    cases h6 : jsonIndex (.obj fields) "targetRefName" with
    | error e => rw [h6, Except.bindErr] at h; simp at h
    | ok v6 =>
    rw [h6, Except.bindOk] at h
    cases h7 : jsonIndex (.obj fields) "repository" with
    | error e => rw [h7, Except.bindErr] at h; simp at h
    | ok v7 =>
    rw [h7, Except.bindOk] at h
    cases h8 : jsonIndex v7 "id" with
    | error e =>
      rw [h8, Except.bindErr] at h
      simp at h
    | ok v8 =>
      have l1 := jsonIndex_ok_lookup h1
      have l2 := jsonIndex_ok_lookup h2
      have l3 := jsonIndex_ok_lookup h3
      have l4 := jsonIndex_ok_lookup h4
      have l5 := jsonIndex_ok_lookup h5
      have l6 := jsonIndex_ok_lookup h6
      have l7 := jsonIndex_ok_lookup h7
      cases v7 with
      | obj rf =>
        have l8 := jsonIndex_ok_lookup h8
        simp [lacksMandatory, l1, l2, l3, l4, l5, l6, l7, l8]
      | null => simp [jsonIndex] at h8
      | bool b => simp [jsonIndex] at h8
      | num n => simp [jsonIndex] at h8
      | str s => simp [jsonIndex] at h8
      | arr xs => simp [jsonIndex] at h8
  | null => simp [parsePR] at h
  | bool b => simp [parsePR] at h
  | num n => simp [parsePR] at h
  | str s => simp [parsePR] at h
  | arr xs => simp [parsePR] at h

lemma parsePRs_ok_forall {l : List Json} {prs : List PullRequest}
    (h : parsePRs l = .ok prs) : ∀ j ∈ l, ∃ pr, parsePR j = .ok pr := by
  induction l generalizing prs with
  | nil => intro j hj; exact absurd hj (by simp)
  | cons x t ih =>
    intro j hj
    simp only [parsePRs, bind] at h
    cases hx : parsePR x with
    | error e => rw [hx, Except.bindErr] at h; exact absurd h (by simp)
    | ok pr1 =>
      rw [hx, Except.bindOk] at h
      cases ht : parsePRs t with
      | error e => rw [ht, Except.bindErr] at h; exact absurd h (by simp)
      | ok prs1 =>
        rcases List.mem_cons.mp hj with he | hm
        · exact ⟨pr1, he ▸ hx⟩
        · exact ih ht j hm

lemma get_pull_requests_ok_shape {c : AzureDevOpsClient}
    {p r status : String} {wire : WireResult} {l : PullRequestList}
    (h : get_pull_requests c p r status wire = .ok l) :
    ∃ prs, l = PullRequestList.from_pull_requests prs := by
  cases wire with
  | connectError m => simp [get_pull_requests] at h
  | timeoutException m => simp [get_pull_requests] at h
  | resp resp =>
    simp only [get_pull_requests, bind] at h
    split at h
    · cases hv : getValueList resp.body with
      | error e => rw [hv, Except.bindErr] at h; simp at h
      | ok elems =>
        rw [hv, Except.bindOk] at h
        cases hp : parsePRs elems with
        | error e => rw [hp, Except.bindErr] at h; simp at h
        | ok prs =>
          rw [hp, Except.bindOk] at h
          refine ⟨prs, ?_⟩
          have := Except.ok.inj h
          rw [← this]
    · split at h
      · simp at h
      · split at h
        · simp at h
        · simp at h

lemma getValueList_some_arr {fields : List (String × Json)} {elems : List Json}
    (hval : fields.lookup "value" = some (.arr elems)) :
    getValueList (.obj fields) = .ok elems := by
  simp [getValueList, dictGet, hval, iterElems]

lemma getValueList_missing {fields : List (String × Json)}
    (hval : fields.lookup "value" = none) :
    getValueList (.obj fields) = .ok [] := by
  simp [getValueList, dictGet, hval, iterElems]

/-! ## Claim theorems -/

/-- Claim C2 counterexample: the claim asserts the host comparison is a
case-insensitive substring check, in particular that a URL whose host spells a
marker in different letter case (such as DEV.AZURE.COM) is still recognized.
On the code the comparison is the case-sensitive Python `in` operator: the
same coordinates are recognized with the lowercase host and yield the no-match
result with either marker uppercased. -/
theorem C2_counterexample :
    parse_azure_devops_url "https://dev.azure.com/myorg/MyProject/_git/MyRepo" =
      .ok (some ⟨"myorg", "MyProject", "MyRepo"⟩) ∧
    parse_azure_devops_url "https://DEV.AZURE.COM/myorg/MyProject/_git/MyRepo" =
      .ok none ∧
    parse_azure_devops_url "https://MYORG.VISUALSTUDIO.COM/MyProject/_git/MyRepo" =
      .ok none := ⟨rfl, rfl, rfl⟩

/-- Claim C2 amended: host-marker comparison in `parse_azure_devops_url` is a
case-SENSITIVE substring check, while the extracted organization, project and
repository keep the source casing; a URL whose host spells the marker in a
different letter case is not recognized.  Stated for every plain nonempty
segment triple: the lowercase modern host is recognized with casing of the
segments preserved, and the fully uppercased host yields the no-match
result. -/
theorem C2_case_sensitivity (org proj repo : String)
    (ho : segPlain org = true) (hp : segPlain proj = true)
    (hr : segPlain repo = true) :
    parse_azure_devops_url
      ("https://dev.azure.com/" ++ org ++ "/" ++ proj ++ "/_git/" ++ repo) =
      .ok (some ⟨org, proj, repo⟩) ∧
    parse_azure_devops_url
      ("https://DEV.AZURE.COM/" ++ org ++ "/" ++ proj ++ "/_git/" ++ repo) =
      .ok none :=
  ⟨parse_modern_plain org proj repo ho hp hr,
   parse_upper_none org proj repo ho hp hr⟩

/-- Claim C2 witness: the amended statement evaluated at the segment triple
myorg / MyProject / MyRepo. -/
theorem C2_case_sensitivity_witness :
    segPlain "myorg" = true ∧
    (parse_azure_devops_url
      ("https://dev.azure.com/" ++ "myorg" ++ "/" ++ "MyProject" ++ "/_git/" ++
        "MyRepo") = .ok (some ⟨"myorg", "MyProject", "MyRepo"⟩) ∧
     parse_azure_devops_url
      ("https://DEV.AZURE.COM/" ++ "myorg" ++ "/" ++ "MyProject" ++ "/_git/" ++
        "MyRepo") = .ok none) :=
  ⟨by decide, C2_case_sensitivity "myorg" "MyProject" "MyRepo"
    (by decide) (by decide) (by decide)⟩

/-- Claim C3: the claim states `parse_azure_devops_url` never raises on any
input string.  The code is a slip against its own documented contract
(docstring: returns the info or None; test suite: invalid URLs return None;
spec: never raises): the un-guarded `urlparse` call raises
`ValueError("Invalid IPv6 URL")` for a URL whose netloc holds an unmatched
bracket, as this evaluation shows, while an ordinary non-URL string does
return the no-match result. -/
theorem C3_raise_on_unmatched_bracket :
    parse_azure_devops_url "https://[" = .error (.valueError "Invalid IPv6 URL") ∧
    parse_azure_devops_url "not-a-valid-url" = .ok none := ⟨rfl, rfl⟩

/-- Claim C4 counterexample: the claim asserts the `_git` triple is matched
against the first three path segments after root, not an arbitrary interior
position of the path.  On the code `re.search` is unanchored: for the path
`/extra/org/proj/_git/repo`, whose first three segments are extra, org, proj
with no `_git` separator at the required position, the parser still returns a
triple taken from an interior position of the path. -/
theorem C4_counterexample :
    parse_azure_devops_url "https://dev.azure.com/extra/org/proj/_git/repo" =
      .ok (some ⟨"org", "proj", "repo"⟩) := rfl

/-- Claim C4 amended: for every URL on the modern cloud host whose path is
exactly `/{org}/{proj}/_git/{repo}` with plain nonempty segments, parsing
yields exactly that triple with casing preserved; the match is however found
by an unanchored scan of the path, so a path with extra leading segments also
matches, at an interior position (second conjunct). -/
theorem C4_modern_format (org proj repo : String)
    (ho : segPlain org = true) (hp : segPlain proj = true)
    (hr : segPlain repo = true) :
    parse_azure_devops_url
      ("https://dev.azure.com/" ++ org ++ "/" ++ proj ++ "/_git/" ++ repo) =
      .ok (some ⟨org, proj, repo⟩) ∧
    parse_azure_devops_url "https://dev.azure.com/team/alpha/beta/_git/gamma" =
      .ok (some ⟨"alpha", "beta", "gamma"⟩) :=
  ⟨parse_modern_plain org proj repo ho hp hr, rfl⟩

/-- Claim C4 witness: the amended statement evaluated at the segment triple
contoso / WebApp / Frontend. -/
theorem C4_modern_format_witness :
    segPlain "contoso" = true ∧
    (parse_azure_devops_url
      ("https://dev.azure.com/" ++ "contoso" ++ "/" ++ "WebApp" ++ "/_git/" ++
        "Frontend") = .ok (some ⟨"contoso", "WebApp", "Frontend"⟩) ∧
     parse_azure_devops_url "https://dev.azure.com/team/alpha/beta/_git/gamma" =
      .ok (some ⟨"alpha", "beta", "gamma"⟩)) :=
  ⟨by decide, C4_modern_format "contoso" "WebApp" "Frontend"
    (by decide) (by decide) (by decide)⟩

/-- Claim C5: for every successful (2xx) upstream response, whenever any
element of the `value` array is an object lacking one of the mandatory fields
(id, title, status, creation date, source ref, target ref, or the nested
repository id), `get_pull_requests` fails with an error rather than returning
a result with a substituted default value. -/
theorem C5_mandatory_fields_fail (c : AzureDevOpsClient) (p r status : String)
    (code : Nat) (fields : List (String × Json)) (elems : List Json) (j : Json)
    (h2xx : 200 ≤ code ∧ code ≤ 299)
    (hval : fields.lookup "value" = some (.arr elems))
    (hmem : j ∈ elems) (hlack : lacksMandatory j = true) :
    ∃ e, get_pull_requests c p r status (.resp ⟨code, .obj fields⟩) = .error e := by
  simp only [get_pull_requests, bind, if_pos h2xx,
    getValueList_some_arr hval, Except.bindOk]
  cases hp : parsePRs elems with
  | error e => exact ⟨e, by rw [Except.bindErr]⟩
  | ok prs =>
    obtain ⟨pr, hpr⟩ := parsePRs_ok_forall hp j hmem
    rw [parsePR_ok_not_lacks hpr] at hlack
    exact absurd hlack (by simp)

/-- Claim C5 witness: a 200 response whose single `value` element is an empty
object (lacking every mandatory field) makes the call fail. -/
theorem C5_mandatory_fields_fail_witness :
    (200 ≤ 200 ∧ 200 ≤ 299) ∧
    ([("value", Json.arr [Json.obj []])].lookup "value" =
      some (.arr [Json.obj []])) ∧
    (Json.obj [] ∈ [Json.obj []]) ∧ lacksMandatory (Json.obj []) = true ∧
    ∃ e, get_pull_requests ⟨"testorg", "pat"⟩ "testproj" "testrepo" "active"
      (.resp ⟨200, .obj [("value", Json.arr [Json.obj []])]⟩) = .error e :=
  ⟨by decide, by simp, by simp, by decide,
   C5_mandatory_fields_fail ⟨"testorg", "pat"⟩ "testproj" "testrepo" "active"
     200 [("value", Json.arr [Json.obj []])] [Json.obj []] (Json.obj [])
     (by decide) (by simp) (by simp) (by decide)⟩

/-- Claim C7: the `count` of every list built by `from_pull_requests` and of
every list returned by `get_pull_requests` equals the number of entries in
`pull_requests`; and an upstream payload with an empty `value` array yields
count zero with the empty sequence. -/
theorem C7_count_invariant :
    (∀ prs : List PullRequest,
      (PullRequestList.from_pull_requests prs).count =
        (PullRequestList.from_pull_requests prs).pull_requests.length) ∧
    (∀ (c : AzureDevOpsClient) (p r status : String) (wire : WireResult)
      (l : PullRequestList), get_pull_requests c p r status wire = .ok l →
        l.count = l.pull_requests.length) ∧
    (∀ (c : AzureDevOpsClient) (p r status : String) (code : Nat)
      (fields : List (String × Json)), 200 ≤ code ∧ code ≤ 299 →
        fields.lookup "value" = some (.arr []) →
        get_pull_requests c p r status (.resp ⟨code, .obj fields⟩) =
          .ok ⟨[], 0⟩) := by
  refine ⟨fun prs => rfl, ?_, ?_⟩
  · intro c p r status wire l h
    obtain ⟨prs, hl⟩ := get_pull_requests_ok_shape h
    rw [hl]
    rfl
  · intro c p r status code fields h2xx hval
    simp only [get_pull_requests, bind, if_pos h2xx,
      getValueList_some_arr hval, Except.bindOk]
    rfl

/-- Claim C7 witness: the invariant applied to a successful empty-payload
call. -/
theorem C7_count_invariant_witness :
    (200 ≤ 204 ∧ 204 ≤ 299) ∧
    ([("value", Json.arr [])].lookup "value" = some (.arr [])) ∧
    get_pull_requests ⟨"testorg", "pat"⟩ "testproj" "testrepo" "active"
      (.resp ⟨204, .obj [("value", Json.arr [])]⟩) = .ok ⟨[], 0⟩ :=
  ⟨by decide, by simp,
   C7_count_invariant.2.2 ⟨"testorg", "pat"⟩ "testproj" "testrepo" "active"
     204 [("value", Json.arr [])] (by decide) (by simp)⟩

/-- Claim C10: a successful (2xx) response whose JSON object body lacks the
`value` key entirely yields the empty list with count zero, exactly like the
empty-array case, rather than being treated as malformed. -/
theorem C10_missing_value_key (c : AzureDevOpsClient) (p r status : String)
    (code : Nat) (fields : List (String × Json))
    (h2xx : 200 ≤ code ∧ code ≤ 299)
    (hval : fields.lookup "value" = none) :
    get_pull_requests c p r status (.resp ⟨code, .obj fields⟩) = .ok ⟨[], 0⟩ := by
  simp only [get_pull_requests, bind, if_pos h2xx,
    getValueList_missing hval, Except.bindOk]
  rfl

/-- Claim C10 witness: a 200 response with an empty object body returns the
empty list. -/
theorem C10_missing_value_key_witness :
    (200 ≤ 200 ∧ 200 ≤ 299) ∧ (([] : List (String × Json)).lookup "value" = none) ∧
    get_pull_requests ⟨"testorg", "pat"⟩ "testproj" "testrepo" "active"
      (.resp ⟨200, .obj []⟩) = .ok ⟨[], 0⟩ :=
  ⟨by decide, by simp,
   C10_missing_value_key ⟨"testorg", "pat"⟩ "testproj" "testrepo" "active"
     200 [] (by decide) (by simp)⟩

/-- Claim C8: for every call to `get_pull_requests`, the status filter `"all"`
makes the outbound request carry no status query parameter at all, and every
other status string is sent verbatim as the `searchCriteria.status` parameter
(the parameters otherwise hold only the fixed `api-version`). -/
theorem C8_status_filter (c : AzureDevOpsClient) (p r status : String) :
    (status = "all" →
      (c.request p r status).params = [("api-version", "7.1")]) ∧
    (status ≠ "all" →
      (c.request p r status).params =
        [("api-version", "7.1"), ("searchCriteria.status", status)]) := by
  constructor
  · intro h
    simp [AzureDevOpsClient.request, h, API_VERSION]
  · intro h
    simp [AzureDevOpsClient.request, h, API_VERSION]

/-- Claim C8 witness: the parameter lists for the statuses `"all"` and
`"completed"`. -/
theorem C8_status_filter_witness :
    ((⟨"o", "pat"⟩ : AzureDevOpsClient).request "p" "r" "all").params =
      [("api-version", "7.1")] ∧
    ((⟨"o", "pat"⟩ : AzureDevOpsClient).request "p" "r" "completed").params =
      [("api-version", "7.1"), ("searchCriteria.status", "completed")] :=
  ⟨(C8_status_filter ⟨"o", "pat"⟩ "p" "r" "all").1 rfl,
   (C8_status_filter ⟨"o", "pat"⟩ "p" "r" "completed").2 (by decide)⟩

/-- Claim C6: every network-level failure of the outbound request (connection
refused / DNS failure via `ConnectError`, or `TimeoutException`) makes
`get_pull_requests` raise the connectivity `ValueError`, and that error value
is distinct from the 401 authentication error, from every 404 not-found
error, and from the re-raised `HTTPStatusError` of any other non-2xx
status. -/
theorem C6_network_error_distinct (c : AzureDevOpsClient)
    (p r status msg : String) :
    (get_pull_requests c p r status (.connectError msg) =
      .error (.valueError ("Network error connecting to Azure DevOps: " ++ msg)) ∧
     get_pull_requests c p r status (.timeoutException msg) =
      .error (.valueError ("Network error connecting to Azure DevOps: " ++ msg))) ∧
    (∀ body : Json, get_pull_requests c p r status (.resp ⟨401, body⟩) =
      .error (.valueError
        "Authentication failed. Check AZURE_DEVOPS_PAT token and permissions")) ∧
    PyError.valueError ("Network error connecting to Azure DevOps: " ++ msg) ≠
      .valueError
        "Authentication failed. Check AZURE_DEVOPS_PAT token and permissions" ∧
    (∀ (body : Json) (p2 r2 : String),
      get_pull_requests c p2 r2 status (.resp ⟨404, body⟩) =
        .error (.valueError ("Project \x27" ++ p2 ++ "\x27 or repository \x27" ++
          r2 ++ "\x27 not found"))) ∧
    (∀ p2 r2 : String,
      PyError.valueError ("Network error connecting to Azure DevOps: " ++ msg) ≠
        .valueError ("Project \x27" ++ p2 ++ "\x27 or repository \x27" ++ r2 ++
          "\x27 not found")) ∧
    (∀ (code : Nat) (body : Json), ¬(200 ≤ code ∧ code ≤ 299) → ¬code = 401 →
      ¬code = 404 → get_pull_requests c p r status (.resp ⟨code, body⟩) =
        .error (.httpStatusError code)) ∧
    (∀ code : Nat,
      PyError.valueError ("Network error connecting to Azure DevOps: " ++ msg) ≠
        .httpStatusError code) := by
  obtain ⟨m⟩ := msg
  refine ⟨⟨rfl, rfl⟩, fun body => rfl, ?_, fun body p2 r2 => rfl, ?_, ?_, ?_⟩
  · intro h
    injection h with h2
    have h3 : ("Network error connecting to Azure DevOps: " ++ (⟨m⟩ : String)).data.head? =
        ("Authentication failed. Check AZURE_DEVOPS_PAT token and permissions" :
          String).data.head? := congrArg (fun s => s.data.head?) h2
    have hL : ("Network error connecting to Azure DevOps: " ++ (⟨m⟩ : String)).data.head? =
        some 'N' := rfl
    rw [hL] at h3
    exact absurd h3 (by decide)
  · intro p2 r2 h
    obtain ⟨pd⟩ := p2
    obtain ⟨rd⟩ := r2
    injection h with h2
    have h3 : ("Network error connecting to Azure DevOps: " ++ (⟨m⟩ : String)).data.head? =
        ("Project \x27" ++ (⟨pd⟩ : String) ++ "\x27 or repository \x27" ++ (⟨rd⟩ : String) ++
          "\x27 not found").data.head? := congrArg (fun s => s.data.head?) h2
    have hL : ("Network error connecting to Azure DevOps: " ++ (⟨m⟩ : String)).data.head? =
        some 'N' := rfl
    have hR : ("Project \x27" ++ (⟨pd⟩ : String) ++ "\x27 or repository \x27" ++ (⟨rd⟩ : String) ++
        "\x27 not found").data.head? = some 'P' := rfl
    rw [hL, hR] at h3
    exact absurd h3 (by decide)
  · intro code body hn h401 h404
    simp only [get_pull_requests, if_neg hn, if_neg h401, if_neg h404]
  · intro code h
    exact PyError.noConfusion h

/-- Claim C6 witness: a refused connection yields the connectivity error, and
the distinctness facts instantiated against a 500 upstream error. -/
theorem C6_network_error_distinct_witness :
    get_pull_requests ⟨"o", "pat"⟩ "p" "r" "active"
      (.connectError "Connection refused") =
      .error (.valueError
        ("Network error connecting to Azure DevOps: " ++ "Connection refused")) ∧
    ¬(200 ≤ 500 ∧ 500 ≤ 299) ∧
    get_pull_requests ⟨"o", "pat"⟩ "p" "r" "active" (.resp ⟨500, .obj []⟩) =
      .error (.httpStatusError 500) ∧
    PyError.valueError
      ("Network error connecting to Azure DevOps: " ++ "Connection refused") ≠
      .httpStatusError 500 :=
  ⟨(C6_network_error_distinct ⟨"o", "pat"⟩ "p" "r" "active"
      "Connection refused").1.1,
   by decide,
   (C6_network_error_distinct ⟨"o", "pat"⟩ "p" "r" "active"
      "Connection refused").2.2.2.2.2.1 500 (.obj []) (by decide) (by decide)
      (by decide),
   (C6_network_error_distinct ⟨"o", "pat"⟩ "p" "r" "active"
      "Connection refused").2.2.2.2.2.2 500⟩

/-- Whether the modelled subprocess call failed (non-zero exit, timeout, or
missing executable). -/
def SubprocResult.failed : SubprocResult → Bool
  | .success _ => false
  | .calledProcessError => true
  | .timeoutExpired => true
  | .fileNotFound => true

/-- Claim C9: every failure of the remote-detection subprocess (non-zero
exit, tool not found, or timeout) makes detection return absence rather than
an error, and the current-repository handler then returns (not raises) the
JSON object with exactly the keys `error` and `suggestion`, both bound to
strings, with the global client state untouched. -/
theorem C9_detection_failure_payload (sub : SubprocResult)
    (hfail : sub.failed = true) (settings : Settings) (st : AdoState)
    (status : String) (wire : WireResult) :
    detect_current_repo sub = .ok none ∧
    list_current_pull_requests_resource sub settings st status wire =
      .ok (.obj [("error", .str "Not in an Azure DevOps git repository"),
        ("suggestion", .str ("Use explicit organization/project/repository " ++
          "parameters or run from an Azure DevOps git repository"))], st) := by
  cases sub with
  | success stdout => simp [SubprocResult.failed] at hfail
  | calledProcessError => exact ⟨rfl, rfl⟩
  | timeoutExpired => exact ⟨rfl, rfl⟩
  | fileNotFound => exact ⟨rfl, rfl⟩

/-- Claim C9 witness: a non-zero git exit status with concrete settings and
an empty client state. -/
theorem C9_detection_failure_payload_witness :
    SubprocResult.calledProcessError.failed = true ∧
    (detect_current_repo .calledProcessError = .ok none ∧
     list_current_pull_requests_resource .calledProcessError
       ⟨"pat", none, none, none, "stdio", "INFO"⟩ none "active"
       (.connectError "unused") =
       .ok (.obj [("error", .str "Not in an Azure DevOps git repository"),
         ("suggestion", .str ("Use explicit organization/project/repository " ++
           "parameters or run from an Azure DevOps git repository"))], none)) :=
  ⟨rfl, C9_detection_failure_payload .calledProcessError rfl
    ⟨"pat", none, none, none, "stdio", "INFO"⟩ none "active"
    (.connectError "unused")⟩

/-- Claim C1 counterexample: the claim asserts the organization targeted by
the outbound request of `list_pull_requests_resource` equals the organization
supplied by the caller.  On the code the handler never reads its
`organization` argument: with the singleton client already constructed for
orgA, a call passing orgB (even with orgB configured as the default) issues
its GET against orgA. -/
theorem C1_counterexample :
    list_pull_requests_outbound .fileNotFound
      ⟨"pat", some "orgB", none, none, "stdio", "INFO"⟩
      (some ⟨"orgA", "pat"⟩) "orgB" "proj" "repo" "active" =
      .ok ⟨"https://dev.azure.com/orgA/proj/_apis/git/repositories/repo/pullrequests",
        [("api-version", "7.1"), ("searchCriteria.status", "active")]⟩ ∧
    ("https://dev.azure.com/orgA/proj/_apis/git/repositories/repo/pullrequests" :
      String) ≠
      "https://dev.azure.com/orgB/proj/_apis/git/repositories/repo/pullrequests" :=
  ⟨rfl, by decide⟩

/-- Claim C1 amended: the fetch of `list_pull_requests_resource` goes through
the singleton client of `get_ado_client`; the caller-supplied organization
argument never influences the outbound request (first conjunct: the request is
invariant in that argument), the organization is the one fixed at client
construction (second conjunct: with a constructed client the request is that
client's), and at first construction it is taken from git auto-detection when
available, else from configuration (third and fourth conjuncts). -/
theorem C1_organization_fixed (sub : SubprocResult) (settings : Settings)
    (st : AdoState) (orgA orgB p r status : String) :
    (list_pull_requests_outbound sub settings st orgA p r status =
      list_pull_requests_outbound sub settings st orgB p r status) ∧
    (∀ c : AzureDevOpsClient, st = some c →
      list_pull_requests_outbound sub settings st orgA p r status =
        .ok (c.request p r status)) ∧
    (∀ ri : RepoInfo, st = (none : Option AzureDevOpsClient) →
      detect_current_repo sub = .ok (some ri) → ¬ri.organization = "" →
      list_pull_requests_outbound sub settings st orgA p r status =
        .ok ((AzureDevOpsClient.mk ri.organization
          settings.azure_devops_pat).request p r status)) ∧
    (∀ o : String, st = (none : Option AzureDevOpsClient) →
      detect_current_repo sub = .ok none →
      settings.ado_organization = some o → ¬o = "" →
      list_pull_requests_outbound sub settings st orgA p r status =
        .ok ((AzureDevOpsClient.mk o
          settings.azure_devops_pat).request p r status)) := by
  refine ⟨rfl, ?_, ?_, ?_⟩
  · intro c h
    subst h
    rfl
  · intro ri h hdet hne
    subst h
    simp only [list_pull_requests_outbound, get_ado_client, hdet, bind,
      Except.bindOk, if_neg hne]
    rfl
  · intro o h hdet hcfg hne
    subst h
    simp only [list_pull_requests_outbound, get_ado_client, hdet, hcfg, bind,
      Except.bindOk, if_neg hne]
    rfl

/-- Claim C1 witness: with the singleton already constructed for orgFixed,
the outbound request of a call passing a different organization is the
orgFixed request. -/
theorem C1_organization_fixed_witness :
    list_pull_requests_outbound .calledProcessError
      ⟨"pat", none, none, none, "stdio", "INFO"⟩
      (some ⟨"orgFixed", "pat"⟩) "ignored" "proj" "repo" "active" =
      .ok ((AzureDevOpsClient.mk "orgFixed" "pat").request "proj" "repo"
        "active") :=
  (C1_organization_fixed .calledProcessError
    ⟨"pat", none, none, none, "stdio", "INFO"⟩ (some ⟨"orgFixed", "pat"⟩)
    "ignored" "other" "proj" "repo" "active").2.1 ⟨"orgFixed", "pat"⟩ rfl
